import Mathlib

/-! dontusepasswords: a shallow embedding of the account orchestration.

The Go packages `account`, `account/json`, `auth`, `auth/scrypt`, the root
package `dontusepasswords` and the session store of `example` are embedded
as pure Lean functions.

* A Go `error` value is `Option GoError` (`none` is `nil`).
* A `*account.Account` is `Option Ptr` (`none` is the nil pointer); the
  objects pointed to live in a `Heap`, so that a write through a pointer is
  seen by everyone holding that pointer, as in Go.
* A function that can panic returns `none` for its result.
* Every operation records the calls it makes to the store and to the
  registered mechanisms in a trace of `Event`s, in call order.
-/

namespace Dup

/-- A Go byte slice; a nil slice and an empty slice are both `[]`. -/
abbrev Bytes := List Nat

/-- A non-nil `*account.Account`: an address in the heap. -/
abbrev Ptr := Nat

/-! ## Errors -/

/-- The dynamic types an `error` value can have.
`notFoundError` is `*account.NotFoundError`, `invalidAuthType` is
`*auth.invalidAuthType`, `fundamental` is what `errors.New` builds and
`withStack` what `errors.Wrap` builds (package `github.com/pkg/errors`).
`foreign` stands for any other type, e.g. one defined by a store: it records
whether that type implements `account.NotFound` and `auth.InvalidType` and,
if so, what the method returns. -/
inductive GoError where
  | notFoundError (str : String)
  | invalidAuthType (authType : String)
  | fundamental (msg : String)
  | withStack (cause : GoError) (msg : String)
  | foreign (text : String) (isNotFound : Option Bool) (isInvalidType : Option Bool)
deriving DecidableEq, Repr

/-- Wrap from `github.com/pkg/errors`: nil for a nil error, otherwise a new
error value of the library's own type holding the cause and the message. -/
def errors.Wrap (err : Option GoError) (message : String) : Option GoError :=
  match err with
  | none => none
  | some e => some (GoError.withStack e message)

/-- New from `github.com/pkg/errors`. -/
def errors.New (message : String) : Option GoError :=
  some (GoError.fundamental message)

/-- Cause from `github.com/pkg/errors`: the innermost error of a chain of
wrapped errors. -/
def GoError.cause : GoError → GoError
  | GoError.withStack c _ => c.cause
  | e => e

/-- IsNotFound of `account/account.go`: a type assertion to the `NotFound`
interface on the error value itself, then the method. -/
def account.IsNotFound (err : Option GoError) : Bool :=
  match err with
  | some (GoError.notFoundError _) => true
  | some (GoError.foreign _ (some b) _) => b
  | _ => false

/-- IsInvalidType of `auth/auth.go`: a type assertion to the `InvalidType`
interface on the error value itself, then the method. -/
def auth.IsInvalidType (err : Option GoError) : Bool :=
  match err with
  | some (GoError.invalidAuthType _) => true
  | some (GoError.foreign _ _ (some b)) => b
  | _ => false

/-! ## Accounts and the heap -/

/-- Account of `account/account.go`. `Expires` is an instant, counted from
the zero `time.Time`. -/
structure Account where
  Name : String := ""
  AuthType : String := ""
  AuthData : Bytes := []
  Locked : Bool := false
  Expires : Int := 0
  AuxData : Bytes := []
deriving DecidableEq, Repr

/-- The account objects, by address, and the first address not yet handed out
by an allocation. -/
structure Heap where
  obj : Ptr → Account
  next : Ptr

/-- Write through a pointer. -/
def Heap.set (h : Heap) (p : Ptr) (a : Account) : Heap :=
  { h with obj := fun q => if q = p then a else h.obj q }

/-- Allocate a new object: `&account.Account{...}`. -/
def Heap.alloc (h : Heap) (a : Account) : Ptr × Heap :=
  (h.next, { obj := fun q => if q = h.next then a else h.obj q, next := h.next + 1 })

/-- The calls an operation makes to its collaborators. `storeUpdate` records
the pointer passed and the object it pointed to at the time of the call;
`verify` and `compute` are calls of a registered mechanism's methods. -/
inductive Event where
  | storeGet (name : String)
  | storeUpdate (a : Ptr) (obj : Account)
  | storeFlush
  | verify (authtype : String) (challenge attempt : Bytes)
  | compute (authtype : String) (v : Bytes)
deriving DecidableEq, Repr

/-- Store of `account/account.go`, the three methods `Accounts` calls, for a
store whose own state has type `σ`. Get, Update and Flush read the account
objects but do not write through account pointers. -/
structure Store (σ : Type) where
  Get : String → Heap → σ → (Option Ptr × Option GoError) × σ
  Update : Ptr → Heap → σ → Option GoError × σ
  Flush : Heap → σ → Option GoError × σ

/-- The state an operation runs in: the account objects and the store. -/
structure World (σ : Type) where
  heap : Heap
  store : σ

/-- What a call leaves behind: its return values (`none` if it panicked), the
state, and the calls it made. -/
structure Outcome (σ α : Type) where
  ret : Option α
  world : World σ
  trace : List Event

/-! ## Package auth -/

/-- ComputerVerifier of `auth/auth.go`. A method returns `none` when it
panics. An implementation that reads random bytes is given together with
what that read returns. -/
structure ComputerVerifier where
  Compute : Bytes → Option (Bytes × Option GoError)
  Verify : Bytes → Bytes → Option Bool

/-- The package variable `registry`. -/
abbrev Registry := String → Option ComputerVerifier

/-- Register of `auth/auth.go`. -/
def auth.Register (registry : Registry) (name : String) (cv : ComputerVerifier) :
    Option GoError × Registry :=
  match registry name with
  | some _ => (errors.New ("duplicate ComputerVerifier: " ++ name), registry)
  | none => (none, fun k => if k = name then some cv else registry k)

/-- Verify of `auth/auth.go`, with the calls it made. -/
def auth.Verify (registry : Registry) (authtype : String) (challenge attempt : Bytes) :
    Option (Bool × Option GoError) × List Event :=
  match registry authtype with
  | none => (some (false, some (GoError.invalidAuthType authtype)), [])
  | some cv =>
    match cv.Verify challenge attempt with
    | none => (none, [Event.verify authtype challenge attempt])
    | some b => (some (b, none), [Event.verify authtype challenge attempt])

/-- Compute of `auth/auth.go`, with the calls it made. -/
def auth.Compute (registry : Registry) (authtype : String) (v : Bytes) :
    Option (Bytes × Option GoError) × List Event :=
  match registry authtype with
  | none => (some ([], some (GoError.invalidAuthType authtype)), [])
  | some cv => (cv.Compute v, [Event.compute authtype v])

/-- TestAuth of `auth/auth_test.go`: every byte xor 131. -/
def TestAuth : ComputerVerifier where
  Compute := fun v => some (v.map (fun vv => (vv ^^^ 131) % 256), none)
  Verify := fun challenge attempt =>
    some (decide (challenge = attempt.map (fun vv => (vv ^^^ 131) % 256)))

/-! ## Package account/json -/

/-- Store of `account/json/json.go` (the mutex aside). A key of the map is
bound to a `*account.Account`, which may be nil (a JSON `null`). The map
itself is not nil: a store that `New` loaded from a file holding only `null`
has a nil map, on which Update and Rename panic, and is not represented. -/
structure json.Store where
  path : String
  accounts : String → Option (Option Ptr)

/-- What the file system answers at a Flush: the error of `os.OpenFile` and
the error of the encoder. -/
structure json.Files where
  openErr : Option GoError
  encodeErr : Option GoError

/-- Get of `account/json/json.go`. -/
def json.Store.Get (s : json.Store) (name : String) : Option Ptr × Option GoError :=
  match s.accounts name with
  | some a => (a, none)
  | none => (none, some (GoError.notFoundError "not found"))

/-- Update of `account/json/json.go`, on a store whose map is not nil. -/
def json.Store.Update (s : json.Store) (a : Ptr) (h : Heap) : Option GoError × json.Store :=
  (none, { s with accounts := fun k => if k = (h.obj a).Name then some (some a) else s.accounts k })

/-- Delete of `account/json/json.go`. -/
def json.Store.Delete (s : json.Store) (name : String) : Option GoError × json.Store :=
  (none, { s with accounts := fun k => if k = name then none else s.accounts k })

/-- Rename of `account/json/json.go`, on a store whose map is not nil; it
writes the new name through the pointer. -/
def json.Store.Rename (s : json.Store) (newname : String) (a : Ptr) (h : Heap) :
    Option GoError × json.Store × Heap :=
  let old := (h.obj a).Name
  let s1 : json.Store :=
    { s with accounts := fun k => if k = newname then some (some a) else s.accounts k }
  let s2 := (s1.Delete old).2
  (none, s2, h.set a { (h.obj a) with Name := newname })

/-- Flush of `account/json/json.go`: only its error result is modelled. -/
def json.Store.Flush (_s : json.Store) (fs : json.Files) : Option GoError :=
  match fs.openErr with
  | some err => errors.Wrap (some err) "writing account store"
  | none =>
    match fs.encodeErr with
    | some err => errors.Wrap (some err) "encoding account store"
    | none => none

/-- The JSON store as an `account.Store`. -/
def jsonStore : Store (json.Store × json.Files) where
  Get := fun name _ st => (st.1.Get name, st)
  Update := fun a h st => ((st.1.Update a h).1, ((st.1.Update a h).2, st.2))
  Flush := fun _ st => (st.1.Flush st.2, st)

/-! ## Package dontusepasswords -/

/-- AuthResult of `dup.go`; the zero value is the default. -/
structure AuthResult where
  Account : Option Ptr := none
  Success : Bool := false
  Expired : Bool := false
  Locked : Bool := false
  NotExist : Bool := false
deriving DecidableEq, Repr

/-- Accounts of `dup.go`. -/
structure Accounts (σ : Type) where
  Store : Dup.Store σ
  PasswordLifetime : Int
  AuthType : String

/-- Get of `dup.go`. -/
def Accounts.Get {σ : Type} (s : Accounts σ) (name : String) (w : World σ) :
    Outcome σ (Option Ptr × Option GoError) :=
  { ret := some (s.Store.Get name w.heap w.store).1,
    world := { w with store := (s.Store.Get name w.heap w.store).2 },
    trace := [Event.storeGet name] }

/-- Update of `dup.go`: the store's Update, then its Flush. -/
def Accounts.Update {σ : Type} (s : Accounts σ) (a : Ptr) (w : World σ) :
    Outcome σ (Option GoError) :=
  match s.Store.Update a w.heap w.store with
  | (some err, st1) =>
    { ret := some (errors.Wrap (some err) "updating account"),
      world := { w with store := st1 },
      trace := [Event.storeUpdate a (w.heap.obj a)] }
  | (none, st1) =>
    match s.Store.Flush w.heap st1 with
    | (some err, st2) =>
      { ret := some (errors.Wrap (some err) "flushing account update"),
        world := { w with store := st2 },
        trace := [Event.storeUpdate a (w.heap.obj a), Event.storeFlush] }
    | (none, st2) =>
      { ret := some none,
        world := { w with store := st2 },
        trace := [Event.storeUpdate a (w.heap.obj a), Event.storeFlush] }

/-- The unexported setChallenge of `dup.go`. -/
def Accounts.setChallenge {σ : Type} (s : Accounts σ) (registry : Registry) (a : Ptr)
    (v : Bytes) (w : World σ) : Outcome σ (Option GoError) :=
  match auth.Compute registry s.AuthType v with
  | (none, t) => { ret := none, world := w, trace := t }
  | (some (_, some err), t) =>
    { ret := some (errors.Wrap (some err) "computing new challenge for account"),
      world := w, trace := t }
  | (some (v1, none), t) =>
    { ret := some none,
      world := { w with
        heap := w.heap.set a { (w.heap.obj a) with AuthType := s.AuthType, AuthData := v1 } },
      trace := t }

/-- The unexported touchExpiration of `dup.go`; `now` is what `time.Now()`
returns. -/
def Accounts.touchExpiration {σ : Type} (s : Accounts σ) (now : Int) (a : Ptr)
    (w : World σ) : World σ :=
  { w with heap := w.heap.set a { (w.heap.obj a) with Expires := now + s.PasswordLifetime } }

/-- NewChallenge of `dup.go`. -/
def Accounts.NewChallenge {σ : Type} (s : Accounts σ) (registry : Registry) (now : Int)
    (a : Ptr) (v : Bytes) (w : World σ) : Outcome σ (Option GoError) :=
  match s.setChallenge registry a v w with
  | { ret := none, world := w1, trace := t } => { ret := none, world := w1, trace := t }
  | { ret := some (some err), world := w1, trace := t } =>
    { ret := some (errors.Wrap (some err) "setting new challenge"), world := w1, trace := t }
  | { ret := some none, world := w1, trace := t } =>
    { ret := some none, world := s.touchExpiration now a w1, trace := t }

/-- New of `dup.go`. -/
def Accounts.New {σ : Type} (s : Accounts σ) (name : String) (w : World σ) :
    Outcome σ (Option Ptr × Option GoError) :=
  match s.Store.Get name w.heap w.store with
  | ((some _, err), st1) =>
    { ret := some (none, errors.Wrap err ("account " ++ name ++ " already exists")),
      world := { w with store := st1 },
      trace := [Event.storeGet name] }
  | ((none, _), st1) =>
    { ret := some (some (w.heap.alloc { Name := name }).1, none),
      world := { heap := (w.heap.alloc { Name := name }).2, store := st1 },
      trace := [Event.storeGet name] }

/-- Auth of `dup.go`. The result is `none` when the call panics: on a nil
account returned without an error, or when the mechanism panics. -/
def Accounts.Auth {σ : Type} (s : Accounts σ) (registry : Registry) (name : String)
    (attempt : Bytes) (w : World σ) : Outcome σ (AuthResult × Option GoError) :=
  let r : AuthResult := {}
  match s.Get name w with
  | { ret := none, world := w1, trace := t } => { ret := none, world := w1, trace := t }
  | { ret := some (_, some err), world := w1, trace := t } =>
    if account.IsNotFound (some err) then
      { ret := some ({ r with NotExist := true }, none), world := w1, trace := t }
    else
      { ret := some (r, errors.Wrap (some err) "getting account"), world := w1, trace := t }
  | { ret := some (none, none), world := w1, trace := t } =>
    { ret := none, world := w1, trace := t }
  | { ret := some (some a, none), world := w1, trace := t } =>
    let r : AuthResult := { r with Account := some a }
    if (w1.heap.obj a).Locked then
      { ret := some ({ r with Locked := true }, none), world := w1, trace := t }
    else
      match auth.Verify registry (w1.heap.obj a).AuthType (w1.heap.obj a).AuthData attempt with
      | (none, tv) => { ret := none, world := w1, trace := t ++ tv }
      | (some (ok, some err), tv) =>
        { ret := some ({ r with Success := ok }, errors.Wrap (some err) "verifying account"),
          world := w1, trace := t ++ tv }
      | (some (ok, none), tv) =>
        let r : AuthResult := { r with Success := ok }
        if (w1.heap.obj a).AuthType ≠ s.AuthType then
          match s.setChallenge registry a attempt w1 with
          | { ret := none, world := w2, trace := tc } =>
            { ret := none, world := w2, trace := t ++ tv ++ tc }
          | { ret := some (some err), world := w2, trace := tc } =>
            { ret := some (r, some err), world := w2, trace := t ++ tv ++ tc }
          | { ret := some none, world := w2, trace := tc } =>
            match s.Update a w2 with
            | { ret := none, world := w3, trace := tu } =>
              { ret := none, world := w3, trace := t ++ tv ++ tc ++ tu }
            | { ret := some err, world := w3, trace := tu } =>
              { ret := some (r, err), world := w3, trace := t ++ tv ++ tc ++ tu }
        else
          { ret := some (r, none), world := w1, trace := t ++ tv }

/-! ## Package example: the session store -/

/-- Session of `example/session.go`; `Expires` is an instant. -/
structure Session where
  Id : String := ""
  Username : String := ""
  Expires : Int := 0
deriving DecidableEq, Repr

/-- Sessions of `example/session.go` (the mutex aside). The map binds an id
to a `*Session`; the store creates one object per binding and never binds a
nil pointer, so a binding is modelled by the value of the object, and a
returned `*Session` by the value of the object when the call returns. -/
structure Sessions where
  s : String → Option Session
  duration : Int

/-- NewSessions of `example/session.go` (the goroutine that calls Cleanup
every 15 minutes aside). -/
def NewSessions (d : Int) : Sessions :=
  { s := fun _ => none, duration := d }

/-- The body of the loop of Cleanup, for the key `id` that `range` yields:
the entry is deleted if its Expires is before `now`. A key whose entry is
gone yields nothing. -/
def Sessions.cleanupStep (now : Int) (ss : Sessions) (id : String) : Sessions :=
  match ss.s id with
  | some sess =>
    if sess.Expires < now then { ss with s := fun k => if k = id then none else ss.s k }
    else ss
  | none => ss

/-- Cleanup of `example/session.go`. `now` is what `time.Now()` returns and
`order` is the order in which `range` yields the keys of the map. -/
def Sessions.Cleanup (ss : Sessions) (now : Int) (order : List String) : Sessions :=
  order.foldl (Sessions.cleanupStep now) ss

/-- Get of `example/session.go`, returning the session and the store
afterwards. The function reads the clock twice: `now` is what `time.Now()`
returns in the condition (read only when the id is bound) and `now2` what
it returns when a new session is created. -/
def Sessions.Get (ss : Sessions) (now now2 : Int) (id : String) : Session × Sessions :=
  match ss.s id with
  | some sess =>
    if sess.Expires > now then
      ({ sess with Expires := sess.Expires + ss.duration },
       { ss with s := fun k =>
          if k = id then some { sess with Expires := sess.Expires + ss.duration } else ss.s k })
    else
      ({ Id := id, Username := "", Expires := now2 + ss.duration },
       { ss with s := fun k =>
          if k = id then some { Id := id, Username := "", Expires := now2 + ss.duration }
          else ss.s k })
  | none =>
    ({ Id := id, Username := "", Expires := now2 + ss.duration },
     { ss with s := fun k =>
        if k = id then some { Id := id, Username := "", Expires := now2 + ss.duration }
        else ss.s k })

/-- Delete of `example/session.go`. -/
def Sessions.Delete (ss : Sessions) (id : String) : Sessions :=
  { ss with s := fun k => if k = id then none else ss.s k }

/-! ## Package auth/scrypt -/

/-- Scrypt of `auth/scrypt/scrypt.go`; the fields are Go `int`s. -/
structure Scrypt where
  len : Int
  saltLen : Int
  n : Int
  r : Int
  p : Int
deriving DecidableEq, Repr

/-- The mechanism that `init` registers under the name "SCRYPTDEFAULT". -/
def ScryptDefault : Scrypt := { len := 32, saltLen := 32, n := 16384, r := 8, p := 1 }

/-- The function `scrypt.Key` of `golang.org/x/crypto/scrypt`, taken as a
deterministic function of its arguments password, salt, N, r, p, keyLen. -/
abbrev KeyFn := Bytes → Bytes → Int → Int → Int → Int → Bytes × Option GoError

/-- What one call of `rand.Read` does: the bytes it writes at the start of
the buffer, and the count and the error it returns. -/
structure RandRead where
  bytes : Bytes
  n : Int
  err : Option GoError

/-- Compute of `auth/scrypt/scrypt.go`. `make` panics for a negative length;
the buffer keeps its length saltLen (zero-filled where nothing was written)
whatever the read does. -/
def Scrypt.Compute (s : Scrypt) (key : KeyFn) (rnd : RandRead) (v : Bytes) :
    Option (Bytes × Option GoError) :=
  if s.saltLen < 0 then none
  else
    let salt := (rnd.bytes ++ List.replicate s.saltLen.toNat 0).take s.saltLen.toNat
    if rnd.n ≠ s.saltLen then some ([], errors.New "wrong number of salt bytes read")
    else
      match rnd.err with
      | some e => some ([], some e)
      | none =>
        match key v salt s.n s.r s.p s.len with
        | (_, some e) => some ([], some e)
        | (k, none) => some (salt ++ k, none)

/-- Verify of `auth/scrypt/scrypt.go`. `spare` holds the bytes of the array
behind `challenge` between its length and its capacity. The slice expression
`challenge[:s.saltLen]` panics unless 0 ≤ saltLen ≤ cap(challenge), and
`challenge[s.saltLen:]` panics unless saltLen ≤ len(challenge). -/
def Scrypt.Verify (s : Scrypt) (key : KeyFn) (challenge spare attempt : Bytes) : Option Bool :=
  if s.saltLen < 0 ∨ s.saltLen > challenge.length + spare.length then none
  else
    match key attempt ((challenge ++ spare).take s.saltLen.toNat) s.n s.r s.p s.len with
    | (_, some _) => some false
    | (k, none) =>
      if s.saltLen > challenge.length then none
      else some (decide (k = challenge.drop s.saltLen.toNat))

/-- A Scrypt value as a registered mechanism, given `scrypt.Key`, what the
read of random bytes in Compute does, and the bytes behind the challenge
passed to Verify. -/
def Scrypt.mechanism (s : Scrypt) (key : KeyFn) (rnd : RandRead) (spare : Bytes) :
    ComputerVerifier where
  Compute := fun v => s.Compute key rnd v
  Verify := fun challenge attempt => s.Verify key challenge spare attempt

/-! ## A concrete setting

The JSON store holding three accounts, and the test mechanism registered
under two names, as `auth_test.go` registers it. -/

/-- The registry after `Register("A", &TestAuth{})` and
`Register("B", &TestAuth{})` on the empty registry. -/
def sampleRegistry : Registry :=
  (auth.Register (auth.Register (fun _ => none) "A" TestAuth).2 "B" TestAuth).2

/-- Three account objects. At address 0: "alice", unlocked, stored under
scheme "A" with the challenge that "A" computes for the secret 1,2,3, and
expiring at instant 5. At address 1: "bob", as New creates an account (no
scheme, no challenge). At address 2: "carol", locked. -/
def sampleHeap : Heap where
  obj := fun p =>
    if p = 0 then { Name := "alice", AuthType := "A", AuthData := [130, 129, 128], Expires := 5 }
    else if p = 1 then { Name := "bob" }
    else if p = 2 then { Name := "carol", AuthType := "A", AuthData := [131], Locked := true }
    else {}
  next := 3

/-- The JSON store with "alice", "bob" and "carol" bound to the addresses 0,
1 and 2. -/
def sampleJson : json.Store where
  path := "accounts.json"
  accounts := fun k =>
    if k = "alice" then some (some 0)
    else if k = "bob" then some (some 1)
    else if k = "carol" then some (some 2)
    else none

/-- The sample heap and store, with the file system answering `fs`. -/
def sampleWorld (fs : json.Files) : World (json.Store × json.Files) where
  heap := sampleHeap
  store := (sampleJson, fs)

/-- Accounts over the JSON store, configured with scheme `authType`. -/
def sampleAccounts (authType : String) : Accounts (json.Store × json.Files) where
  Store := jsonStore
  PasswordLifetime := 1000
  AuthType := authType

/-- A file system on which Flush succeeds. -/
def filesOk : json.Files := { openErr := none, encodeErr := none }

/-- A file system on which `os.OpenFile` fails. -/
def filesDenied : json.Files :=
  { openErr := some (GoError.foreign "permission denied" none none), encodeErr := none }

/-- A session store with duration 5 holding the session "sid" of "alice",
which expires at instant 10. -/
def sampleSessions : Sessions where
  s := fun k => if k = "sid" then some { Id := "sid", Username := "alice", Expires := 10 } else none
  duration := 5

/-- A stand-in for `scrypt.Key` to evaluate examples on: it fails for a
parameter N below 2 and otherwise derives the salt followed by the password,
cut to keyLen bytes. -/
def sampleKey : KeyFn := fun password salt n _ _ keyLen =>
  if n < 2 then ([], some (GoError.fundamental "scrypt: N must be > 1 and a power of 2"))
  else ((salt ++ password).take keyLen.toNat, none)

/-- A read of random bytes that fills a buffer of 32 bytes with the byte 7. -/
def sampleRand : RandRead := { bytes := List.replicate 32 7, n := 32, err := none }

/-! ## Theorems -/

/-- C1, evaluated on the code: "alice" is stored under "A", the configured
scheme is "B", and the attempt 9 is rejected by the stored mechanism
(Success is false). Auth all the same recomputes the challenge from the
rejected attempt, writes AuthType "B" and AuthData 138 into the account, and
calls Store.Update and Store.Flush. -/
theorem auth_rehashes_after_rejected_attempt :
    TestAuth.Verify (sampleHeap.obj 0).AuthData [9] = some false ∧
    ((sampleAccounts "B").Auth sampleRegistry "alice" [9] (sampleWorld filesOk)).ret
      = some ({ Account := some 0, Success := false }, none) ∧
    (((sampleAccounts "B").Auth sampleRegistry "alice" [9] (sampleWorld filesOk)).world.heap.obj 0)
      = { Name := "alice", AuthType := "B", AuthData := [138], Expires := 5 } ∧
    ((sampleAccounts "B").Auth sampleRegistry "alice" [9] (sampleWorld filesOk)).trace
      = [Event.storeGet "alice", Event.verify "A" [130, 129, 128] [9], Event.compute "B" [9],
         Event.storeUpdate 0 { Name := "alice", AuthType := "B", AuthData := [138], Expires := 5 },
         Event.storeFlush] := by
  decide

/-- C2, evaluated on the code: the JSON store holds "alice" and its Get
returns the account with a nil error; New("alice") returns no account and a
nil error, because wrapping a nil error gives nil. -/
theorem new_existing_name_returns_nil_error :
    (jsonStore.Get "alice" sampleHeap (sampleJson, filesOk)).1 = (some 0, none) ∧
    ((sampleAccounts "A").New "alice" (sampleWorld filesOk)).ret = some (none, none) := by
  decide

/-- C3, evaluated on the code: the account of "alice" expires at instant 5,
which is earlier than a call at instant 10 (Auth does not read the clock, so
the call below is the call at any instant); the attempt is the right secret,
and the result has Success true and Expired false. -/
theorem auth_leaves_expired_false :
    (sampleHeap.obj 0).Expires < 10 ∧
    ((sampleAccounts "A").Auth sampleRegistry "alice" [1, 2, 3] (sampleWorld filesOk)).ret
      = some ({ Account := some 0, Success := true, Expired := false }, none) := by
  decide

/-- C4, evaluated on the code: "alice" is stored under "A", the configured
scheme is "B", the attempt 9 is rejected by the stored mechanism, and the
file of the store cannot be opened. Auth returns Success false together with
the non-nil error of the flush it attempted. -/
theorem auth_rejected_attempt_returns_error :
    TestAuth.Verify (sampleHeap.obj 0).AuthData [9] = some false ∧
    ((sampleAccounts "B").Auth sampleRegistry "alice" [9] (sampleWorld filesDenied)).ret
      = some ({ Account := some 0, Success := false },
          some (GoError.withStack
            (GoError.withStack (GoError.foreign "permission denied" none none)
              "writing account store")
            "flushing account update")) := by
  decide

/-- C5: migration on a successful login. For every store: if Get returns an
unlocked account stored under a registered scheme A that differs from the
configured scheme B, A accepts the attempt, B computes the challenge c from
the attempt, and the store's Update and Flush succeed, then Auth returns
Success true with a nil error, the account then has AuthType B and AuthData c
(its other fields as before), and the calls made are Get, A's Verify, B's
Compute, Update with that account, Flush, in this order. For the JSON store
(whose Update cannot fail) on a file system where Flush succeeds, a Get of
the same name after Auth returns that account, with AuthType B and AuthData
c, and auth.Verify accepts the attempt under B whenever B round-trips. -/
theorem auth_migrates_on_success :
    (∀ {σ : Type} (s : Accounts σ) (registry : Registry) (name : String) (attempt : Bytes)
      (w : World σ) (a : Ptr) (st1 st2 st3 : σ) (A B : ComputerVerifier) (c : Bytes),
      s.Store.Get name w.heap w.store = ((some a, none), st1) →
      (w.heap.obj a).Locked = false →
      registry (w.heap.obj a).AuthType = some A →
      registry s.AuthType = some B →
      (w.heap.obj a).AuthType ≠ s.AuthType →
      A.Verify (w.heap.obj a).AuthData attempt = some true →
      B.Compute attempt = some (c, none) →
      s.Store.Update a
        (w.heap.set a { (w.heap.obj a) with AuthType := s.AuthType, AuthData := c }) st1
        = (none, st2) →
      s.Store.Flush
        (w.heap.set a { (w.heap.obj a) with AuthType := s.AuthType, AuthData := c }) st2
        = (none, st3) →
      (s.Auth registry name attempt w).ret
        = some ({ Account := some a, Success := true, Expired := false, Locked := false, NotExist := false }, none) ∧
      (s.Auth registry name attempt w).world.heap.obj a
        = { (w.heap.obj a) with AuthType := s.AuthType, AuthData := c } ∧
      (s.Auth registry name attempt w).world.store = st3 ∧
      (s.Auth registry name attempt w).trace
        = [Event.storeGet name,
           Event.verify (w.heap.obj a).AuthType (w.heap.obj a).AuthData attempt,
           Event.compute s.AuthType attempt,
           Event.storeUpdate a { (w.heap.obj a) with AuthType := s.AuthType, AuthData := c },
           Event.storeFlush]) ∧
    (∀ (lifetime : Int) (authType : String) (registry : Registry) (name : String)
      (attempt : Bytes) (heap : Heap) (js : json.Store) (a : Ptr) (A B : ComputerVerifier)
      (c : Bytes),
      js.accounts name = some (some a) →
      (heap.obj a).Locked = false →
      registry (heap.obj a).AuthType = some A →
      registry authType = some B →
      (heap.obj a).AuthType ≠ authType →
      A.Verify (heap.obj a).AuthData attempt = some true →
      B.Compute attempt = some (c, none) →
      ∀ out, out = Accounts.Auth
          { Store := jsonStore, PasswordLifetime := lifetime, AuthType := authType }
          registry name attempt { heap := heap, store := (js, filesOk) } →
      out.ret = some ({ Account := some a, Success := true, Expired := false, Locked := false, NotExist := false }, none) ∧
      (jsonStore.Get name out.world.heap out.world.store).1 = (some a, none) ∧
      (out.world.heap.obj a).AuthType = authType ∧
      (out.world.heap.obj a).AuthData = c ∧
      ((∀ v c1, B.Compute v = some (c1, none) → B.Verify c1 v = some true) →
        (auth.Verify registry (out.world.heap.obj a).AuthType (out.world.heap.obj a).AuthData
          attempt).1 = some (true, none))) := by
  constructor
  · intro σ s registry name attempt w a st1 st2 st3 A B c hget hunl hA hB hne hver hcomp hupd hfl
    simp only [Heap.set, hunl] at hupd hfl
    simp [Accounts.Auth, Accounts.Get, hget, hunl, auth.Verify, hA, hver, hne,
      Accounts.setChallenge, auth.Compute, hB, hcomp, Accounts.Update, hupd, hfl, Heap.set]
  · intro lifetime authType registry name attempt heap js a A B c hjs hunl hA hB hne hver hcomp
      out hout
    subst hout
    have hget : jsonStore.Get name heap (js, filesOk) = ((some a, none), (js, filesOk)) := by
      simp [jsonStore, json.Store.Get, hjs]
    simp [Accounts.Auth, Accounts.Get, hget, hunl, auth.Verify, hA, hver, hne,
      Accounts.setChallenge, auth.Compute, hB, hcomp, Accounts.Update, Heap.set]
    simp [jsonStore, json.Store.Update, json.Store.Flush, filesOk, json.Store.Get, hjs, hB]
    intro hrt
    simp [hrt attempt c hcomp]

/-- Witness for C5: "alice", stored under "A", logs in with the secret 1,2,3
while "B" is configured, over the JSON store. -/
theorem auth_migrates_on_success_witness :
    ((sampleAccounts "B").Auth sampleRegistry "alice" [1, 2, 3] (sampleWorld filesOk)).ret
      = some ({ Account := some 0, Success := true, Expired := false, Locked := false, NotExist := false }, none) ∧
    ((sampleAccounts "B").Auth sampleRegistry "alice" [1, 2, 3] (sampleWorld filesOk)).world.heap.obj 0
      = { Name := "alice", AuthType := "B", AuthData := [130, 129, 128], Expires := 5 } ∧
    (jsonStore.Get "alice"
        ((sampleAccounts "B").Auth sampleRegistry "alice" [1, 2, 3] (sampleWorld filesOk)).world.heap
        ((sampleAccounts "B").Auth sampleRegistry "alice" [1, 2, 3] (sampleWorld filesOk)).world.store).1
      = (some 0, none) :=
  ⟨(auth_migrates_on_success.1 (sampleAccounts "B") sampleRegistry "alice" [1, 2, 3]
      (sampleWorld filesOk) 0 (sampleJson, filesOk)
      ((sampleJson.Update 0 (sampleHeap.set 0
        { Name := "alice", AuthType := "B", AuthData := [130, 129, 128], Expires := 5 })).2, filesOk)
      ((sampleJson.Update 0 (sampleHeap.set 0
        { Name := "alice", AuthType := "B", AuthData := [130, 129, 128], Expires := 5 })).2, filesOk)
      TestAuth TestAuth [130, 129, 128]
      rfl rfl rfl rfl (by decide) (by decide) (by decide) rfl rfl).1,
   (auth_migrates_on_success.1 (sampleAccounts "B") sampleRegistry "alice" [1, 2, 3]
      (sampleWorld filesOk) 0 (sampleJson, filesOk)
      ((sampleJson.Update 0 (sampleHeap.set 0
        { Name := "alice", AuthType := "B", AuthData := [130, 129, 128], Expires := 5 })).2, filesOk)
      ((sampleJson.Update 0 (sampleHeap.set 0
        { Name := "alice", AuthType := "B", AuthData := [130, 129, 128], Expires := 5 })).2, filesOk)
      TestAuth TestAuth [130, 129, 128]
      rfl rfl rfl rfl (by decide) (by decide) (by decide) rfl rfl).2.1,
   (auth_migrates_on_success.2 1000 "B" sampleRegistry "alice" [1, 2, 3] sampleHeap sampleJson 0
      TestAuth TestAuth [130, 129, 128] rfl rfl rfl rfl (by decide) (by decide) (by decide)
      _ rfl).2.1⟩

/-- C6: a migration failure does not turn a valid login into a failure. For
every store: if Get returns an unlocked account stored under a registered
scheme that differs from the configured one and the stored mechanism accepts
the attempt, then in each of these cases Auth returns Success true together
with a non-nil error: the configured scheme is not registered; the
configured mechanism's Compute returns an error; Compute succeeds and the
store's Update fails; Compute and Update succeed and the store's Flush
fails. -/
theorem auth_migration_failure_keeps_success {σ : Type} (s : Accounts σ) (registry : Registry)
    (name : String) (attempt : Bytes) (w : World σ) (a : Ptr) (st1 : σ) (A : ComputerVerifier)
    (hget : s.Store.Get name w.heap w.store = ((some a, none), st1))
    (hunlocked : (w.heap.obj a).Locked = false)
    (hA : registry (w.heap.obj a).AuthType = some A)
    (hne : (w.heap.obj a).AuthType ≠ s.AuthType)
    (hverify : A.Verify (w.heap.obj a).AuthData attempt = some true)
    (hfail :
      registry s.AuthType = none ∨
      (∃ B x e, registry s.AuthType = some B ∧ B.Compute attempt = some (x, some e)) ∨
      (∃ B c e st2, registry s.AuthType = some B ∧ B.Compute attempt = some (c, none) ∧
        s.Store.Update a
          (w.heap.set a { (w.heap.obj a) with AuthType := s.AuthType, AuthData := c }) st1
          = (some e, st2)) ∨
      (∃ B c st2 e st3, registry s.AuthType = some B ∧ B.Compute attempt = some (c, none) ∧
        s.Store.Update a
          (w.heap.set a { (w.heap.obj a) with AuthType := s.AuthType, AuthData := c }) st1
          = (none, st2) ∧
        s.Store.Flush
          (w.heap.set a { (w.heap.obj a) with AuthType := s.AuthType, AuthData := c }) st2
          = (some e, st3))) :
    ∃ e, (s.Auth registry name attempt w).ret
      = some ({ Account := some a, Success := true, Expired := false, Locked := false, NotExist := false }, some e) := by
  rcases hfail with hB | ⟨B, x, e, hB, hcomp⟩ | ⟨B, c, e, st2, hB, hcomp, hupd⟩ |
    ⟨B, c, st2, e, st3, hB, hcomp, hupd, hfl⟩
  · simp [Accounts.Auth, Accounts.Get, hget, hunlocked, auth.Verify, hA, hverify, hne,
      Accounts.setChallenge, auth.Compute, hB, errors.Wrap]
  · simp [Accounts.Auth, Accounts.Get, hget, hunlocked, auth.Verify, hA, hverify, hne,
      Accounts.setChallenge, auth.Compute, hB, hcomp, errors.Wrap]
  · simp only [Heap.set, hunlocked] at hupd
    simp [Accounts.Auth, Accounts.Get, hget, hunlocked, auth.Verify, hA, hverify, hne,
      Accounts.setChallenge, auth.Compute, hB, hcomp, Accounts.Update, hupd, Heap.set,
      errors.Wrap]
  · simp only [Heap.set, hunlocked] at hupd hfl
    simp [Accounts.Auth, Accounts.Get, hget, hunlocked, auth.Verify, hA, hverify, hne,
      Accounts.setChallenge, auth.Compute, hB, hcomp, Accounts.Update, hupd, hfl, Heap.set,
      errors.Wrap]

/-- Witness for C6: "alice", stored under "A", logs in with the secret 1,2,3
while the unregistered scheme "C" is configured. -/
theorem auth_migration_failure_keeps_success_witness :
    ∃ e, ((sampleAccounts "C").Auth sampleRegistry "alice" [1, 2, 3] (sampleWorld filesOk)).ret
      = some ({ Account := some 0, Success := true, Expired := false, Locked := false, NotExist := false }, some e) :=
  auth_migration_failure_keeps_success (sampleAccounts "C") sampleRegistry "alice" [1, 2, 3]
    (sampleWorld filesOk) 0 (sampleJson, filesOk) TestAuth rfl rfl rfl (by decide) (by decide)
    (Or.inl rfl)

/-- C7: for every store and every name for which Get fails with an error
`err`: if account.IsNotFound recognises `err`, Auth returns the result with
NotExist true, Success false, Locked false and no Account, and a nil error;
otherwise it returns the zero result (Success false, NotExist false) and the
non-nil error wrapping `err`. In both cases the only call made is the Get:
no Verify, no Compute, no Update, no Flush; and no account object is
written. -/
theorem auth_get_failure {σ : Type} (s : Accounts σ) (registry : Registry)
    (name : String) (attempt : Bytes) (w : World σ) (x : Option Ptr) (err : GoError) (st1 : σ)
    (hget : s.Store.Get name w.heap w.store = ((x, some err), st1)) :
    (account.IsNotFound (some err) = true →
      (s.Auth registry name attempt w).ret
        = some ({ Account := none, Success := false, Expired := false, Locked := false, NotExist := true }, none)) ∧
    (account.IsNotFound (some err) = false →
      (s.Auth registry name attempt w).ret
        = some ({ Account := none, Success := false, Expired := false, Locked := false, NotExist := false },
            some (GoError.withStack err "getting account"))) ∧
    (s.Auth registry name attempt w).trace = [Event.storeGet name] ∧
    (s.Auth registry name attempt w).world = { heap := w.heap, store := st1 } := by
  simp only [Accounts.Auth, Accounts.Get, hget]
  by_cases h : account.IsNotFound (some err) = true
  · simp [h]
  · simp [h, errors.Wrap]

/-- Witness for C7: "dave" is not in the JSON store, whose Get then fails
with its NotFoundError. -/
theorem auth_get_failure_witness :
    ((sampleAccounts "A").Auth sampleRegistry "dave" [1, 2, 3] (sampleWorld filesOk)).ret
      = some ({ Account := none, Success := false, Expired := false, Locked := false, NotExist := true }, none) ∧
    ((sampleAccounts "A").Auth sampleRegistry "dave" [1, 2, 3] (sampleWorld filesOk)).trace
      = [Event.storeGet "dave"] :=
  ⟨(auth_get_failure (sampleAccounts "A") sampleRegistry "dave" [1, 2, 3] (sampleWorld filesOk)
      none (GoError.notFoundError "not found") (sampleJson, filesOk) rfl).1 rfl,
   (auth_get_failure (sampleAccounts "A") sampleRegistry "dave" [1, 2, 3] (sampleWorld filesOk)
      none (GoError.notFoundError "not found") (sampleJson, filesOk) rfl).2.2.1⟩

/-- C8: for every store, registry and configured scheme: if Get returns an
account with Locked true, then for every attempt Auth returns Locked true,
Success false and a nil error, the only call made is the Get (no Verify, no
Compute, no Update, no Flush), no account object is written, and the whole
outcome is the same for any two attempts. -/
theorem auth_locked {σ : Type} (s : Accounts σ) (registry : Registry)
    (name : String) (attempt attempt2 : Bytes) (w : World σ) (a : Ptr) (st1 : σ)
    (hget : s.Store.Get name w.heap w.store = ((some a, none), st1))
    (hlocked : (w.heap.obj a).Locked = true) :
    (s.Auth registry name attempt w).ret
      = some ({ Account := some a, Success := false, Expired := false, Locked := true, NotExist := false }, none) ∧
    (s.Auth registry name attempt w).trace = [Event.storeGet name] ∧
    (s.Auth registry name attempt w).world = { heap := w.heap, store := st1 } ∧
    s.Auth registry name attempt w = s.Auth registry name attempt2 w := by
  simp [Accounts.Auth, Accounts.Get, hget, hlocked]

/-- Witness for C8: "carol" is locked; the attempts 0 (her secret under "A")
and 7 give the same outcome. -/
theorem auth_locked_witness :
    ((sampleAccounts "A").Auth sampleRegistry "carol" [0] (sampleWorld filesOk)).ret
      = some ({ Account := some 2, Success := false, Expired := false, Locked := true, NotExist := false }, none) ∧
    (sampleAccounts "A").Auth sampleRegistry "carol" [0] (sampleWorld filesOk)
      = (sampleAccounts "A").Auth sampleRegistry "carol" [7] (sampleWorld filesOk) :=
  ⟨(auth_locked (sampleAccounts "A") sampleRegistry "carol" [0] [7] (sampleWorld filesOk) 2
      (sampleJson, filesOk) rfl rfl).1,
   (auth_locked (sampleAccounts "A") sampleRegistry "carol" [0] [7] (sampleWorld filesOk) 2
      (sampleJson, filesOk) rfl rfl).2.2.2⟩

/-- C9: for every store, attempt and configured scheme: if Get returns an
unlocked account whose stored AuthType is not a key of the registry, Auth
returns Success false and a non-nil error (the registry's unknown-scheme
error, wrapped), the only call made is the Get, and no account object is
written. -/
theorem auth_unregistered_stored_scheme {σ : Type} (s : Accounts σ) (registry : Registry)
    (name : String) (attempt : Bytes) (w : World σ) (a : Ptr) (st1 : σ)
    (hget : s.Store.Get name w.heap w.store = ((some a, none), st1))
    (hunlocked : (w.heap.obj a).Locked = false)
    (hunreg : registry (w.heap.obj a).AuthType = none) :
    (s.Auth registry name attempt w).ret
      = some ({ Account := some a, Success := false, Expired := false, Locked := false, NotExist := false },
          some (GoError.withStack (GoError.invalidAuthType (w.heap.obj a).AuthType)
            "verifying account")) ∧
    (s.Auth registry name attempt w).trace = [Event.storeGet name] ∧
    (s.Auth registry name attempt w).world = { heap := w.heap, store := st1 } := by
  simp [Accounts.Auth, Accounts.Get, hget, hunlocked, auth.Verify, hunreg, errors.Wrap]

/-- Witness for C9: "bob" has the empty AuthType of a new account. -/
theorem auth_unregistered_stored_scheme_witness :
    ((sampleAccounts "A").Auth sampleRegistry "bob" [1, 2, 3] (sampleWorld filesOk)).ret
      = some ({ Account := some 1, Success := false, Expired := false, Locked := false, NotExist := false },
          some (GoError.withStack (GoError.invalidAuthType "") "verifying account")) ∧
    ((sampleAccounts "A").Auth sampleRegistry "bob" [1, 2, 3] (sampleWorld filesOk)).world.heap.obj 1
      = { Name := "bob" } :=
  ⟨(auth_unregistered_stored_scheme (sampleAccounts "A") sampleRegistry "bob" [1, 2, 3]
      (sampleWorld filesOk) 1 (sampleJson, filesOk) rfl rfl rfl).1,
   congrArg (fun w => w.heap.obj 1)
     (auth_unregistered_stored_scheme (sampleAccounts "A") sampleRegistry "bob" [1, 2, 3]
      (sampleWorld filesOk) 1 (sampleJson, filesOk) rfl rfl rfl).2.2⟩

/-- C10 as stated fails: "bob" is unlocked and stored under the unregistered
scheme "", and "C" is not registered either. The error Auth returns for
"bob" and the error NewChallenge returns under the configured scheme "C" are
both non-nil, and auth.IsInvalidType is false of both. -/
theorem wrapped_unknown_scheme_not_recognised :
    (sampleHeap.obj 1).Locked = false ∧
    (sampleRegistry (sampleHeap.obj 1).AuthType).isNone = true ∧
    (sampleRegistry "C").isNone = true ∧
    (((sampleAccounts "A").Auth sampleRegistry "bob" [1, 2, 3] (sampleWorld filesOk)).ret.map
        (fun r => r.2))
      = some (some (GoError.withStack (GoError.invalidAuthType "") "verifying account")) ∧
    auth.IsInvalidType
      (some (GoError.withStack (GoError.invalidAuthType "") "verifying account")) = false ∧
    ((sampleAccounts "C").NewChallenge sampleRegistry 10 1 [1, 2, 3] (sampleWorld filesOk)).ret
      = some (some (GoError.withStack
          (GoError.withStack (GoError.invalidAuthType "C") "computing new challenge for account")
          "setting new challenge")) ∧
    auth.IsInvalidType
      (some (GoError.withStack
          (GoError.withStack (GoError.invalidAuthType "C") "computing new challenge for account")
          "setting new challenge")) = false := by
  decide

/-- C10, amended: the unknown-scheme errors of the Accounts operations are
recognisable on their cause, not on the error returned. For every store: the
error Auth returns for an unlocked account whose stored scheme is
unregistered, and the error NewChallenge returns when the configured scheme
is unregistered, are non-nil wrapped errors of which auth.IsInvalidType is
false, and whose cause (errors.Cause) satisfies auth.IsInvalidType. -/
theorem unknown_scheme_recognisable_on_cause :
    (∀ {σ : Type} (s : Accounts σ) (registry : Registry) (name : String) (attempt : Bytes)
      (w : World σ) (a : Ptr) (st1 : σ),
      s.Store.Get name w.heap w.store = ((some a, none), st1) →
      (w.heap.obj a).Locked = false →
      registry (w.heap.obj a).AuthType = none →
      ∃ r e, (s.Auth registry name attempt w).ret = some (r, some e) ∧
        auth.IsInvalidType (some e) = false ∧
        auth.IsInvalidType (some e.cause) = true) ∧
    (∀ {σ : Type} (s : Accounts σ) (registry : Registry) (now : Int) (a : Ptr) (v : Bytes)
      (w : World σ),
      registry s.AuthType = none →
      ∃ e, (s.NewChallenge registry now a v w).ret = some (some e) ∧
        auth.IsInvalidType (some e) = false ∧
        auth.IsInvalidType (some e.cause) = true) := by
  constructor
  · intro σ s registry name attempt w a st1 hget hunl hunreg
    refine ⟨{ Account := some a }, GoError.withStack
      (GoError.invalidAuthType (w.heap.obj a).AuthType) "verifying account", ?_, rfl, rfl⟩
    simp [Accounts.Auth, Accounts.Get, hget, hunl, auth.Verify, hunreg, errors.Wrap]
  · intro σ s registry now a v w hunreg
    refine ⟨GoError.withStack (GoError.withStack (GoError.invalidAuthType s.AuthType)
      "computing new challenge for account") "setting new challenge", ?_, rfl, rfl⟩
    simp [Accounts.NewChallenge, Accounts.setChallenge, auth.Compute, hunreg, errors.Wrap]

/-- Witness for C10 as amended: Auth for "bob" (stored scheme "") and
NewChallenge under the configured scheme "C". -/
theorem unknown_scheme_recognisable_on_cause_witness :
    (∃ r e, ((sampleAccounts "A").Auth sampleRegistry "bob" [1, 2, 3] (sampleWorld filesOk)).ret
        = some (r, some e) ∧
      auth.IsInvalidType (some e) = false ∧ auth.IsInvalidType (some e.cause) = true) ∧
    (∃ e, ((sampleAccounts "C").NewChallenge sampleRegistry 10 1 [1, 2, 3] (sampleWorld filesOk)).ret
        = some (some e) ∧
      auth.IsInvalidType (some e) = false ∧ auth.IsInvalidType (some e.cause) = true) :=
  ⟨unknown_scheme_recognisable_on_cause.1 (sampleAccounts "A") sampleRegistry "bob" [1, 2, 3]
      (sampleWorld filesOk) 1 (sampleJson, filesOk) rfl rfl rfl,
   unknown_scheme_recognisable_on_cause.2 (sampleAccounts "C") sampleRegistry 10 1 [1, 2, 3]
      (sampleWorld filesOk) rfl⟩

/-- C11: for every registry and every name that is already registered,
Register returns a non-nil error and the registry it leaves is the registry
it found: the name is still bound to the mechanism registered first, every
other name keeps its entry, and auth.Verify and auth.Compute answer as
before under every name. -/
theorem register_duplicate_rejected (registry : Registry) (name : String)
    (cv first : ComputerVerifier) (hpresent : registry name = some first) :
    (auth.Register registry name cv).1
      = some (GoError.fundamental ("duplicate ComputerVerifier: " ++ name)) ∧
    (auth.Register registry name cv).2 = registry ∧
    (auth.Register registry name cv).2 name = some first ∧
    (∀ other, other ≠ name → (auth.Register registry name cv).2 other = registry other) ∧
    (∀ n challenge attempt,
      auth.Verify (auth.Register registry name cv).2 n challenge attempt
        = auth.Verify registry n challenge attempt) ∧
    (∀ n v, auth.Compute (auth.Register registry name cv).2 n v = auth.Compute registry n v) := by
  have h2 : (auth.Register registry name cv).2 = registry := by
    simp [auth.Register, hpresent]
  refine ⟨?_, h2, ?_, ?_, ?_, ?_⟩
  · simp [auth.Register, hpresent, errors.New]
  · rw [h2]; exact hpresent
  · intro other _; rw [h2]
  · intro n challenge attempt; rw [h2]
  · intro n v; rw [h2]

/-- Witness for C11: a second registration under "A". -/
theorem register_duplicate_rejected_witness :
    (auth.Register sampleRegistry "A" TestAuth).1
      = some (GoError.fundamental ("duplicate ComputerVerifier: " ++ "A")) ∧
    (auth.Register sampleRegistry "A" TestAuth).2 = sampleRegistry :=
  ⟨(register_duplicate_rejected sampleRegistry "A" TestAuth TestAuth rfl).1,
   (register_duplicate_rejected sampleRegistry "A" TestAuth TestAuth rfl).2.1⟩

/-- C12: for every name that is not a key of the registry and all byte
inputs, auth.Verify returns false with an error of which IsInvalidType is
true, and auth.Compute returns no challenge with an error of which
IsInvalidType is true, and no mechanism is called. For a registered name,
auth.Verify returns the boolean the mechanism answers, with a nil error: a
rejected credential is (false, nil). -/
theorem verify_compute_dispatch :
    (∀ (registry : Registry) (name : String) (challenge attempt v : Bytes),
      registry name = none →
      (∃ e, auth.Verify registry name challenge attempt = (some (false, some e), []) ∧
        auth.IsInvalidType (some e) = true) ∧
      (∃ e, auth.Compute registry name v = (some ([], some e), []) ∧
        auth.IsInvalidType (some e) = true)) ∧
    (∀ (registry : Registry) (name : String) (cv : ComputerVerifier) (challenge attempt : Bytes)
      (b : Bool),
      registry name = some cv →
      cv.Verify challenge attempt = some b →
      (auth.Verify registry name challenge attempt).1 = some (b, none) ∧
      auth.IsInvalidType (none : Option GoError) = false) := by
  constructor
  · intro registry name challenge attempt v hnone
    exact ⟨⟨GoError.invalidAuthType name, by simp [auth.Verify, hnone], rfl⟩,
      ⟨GoError.invalidAuthType name, by simp [auth.Compute, hnone], rfl⟩⟩
  · intro registry name cv challenge attempt b hcv hb
    simp [auth.Verify, hcv, hb, auth.IsInvalidType]

/-- Witness for C12: "NoSuchAuthType" is not registered; under "A" the
attempt 9 is rejected for the challenge of the secret 1,2,3. -/
theorem verify_compute_dispatch_witness :
    (∃ e, auth.Verify sampleRegistry "NoSuchAuthType" [1] [2] = (some (false, some e), []) ∧
      auth.IsInvalidType (some e) = true) ∧
    (auth.Verify sampleRegistry "A" [130, 129, 128] [9]).1 = some (false, none) :=
  ⟨(verify_compute_dispatch.1 sampleRegistry "NoSuchAuthType" [1] [2] [3] rfl).1,
   (verify_compute_dispatch.2 sampleRegistry "A" TestAuth [130, 129, 128] [9] false rfl
      (by decide)).1⟩

/-- C13: NewChallenge sets the credential without persisting. For every
store: if the configured scheme is registered and its Compute returns the
challenge c for v, NewChallenge returns nil, the account then has AuthType =
the configured scheme, AuthData = c and Expires = now + PasswordLifetime with
Name, Locked and AuxData as before, every other account object is as before,
the store is as before and the only call made is that Compute. If the
configured scheme is not registered, or its Compute returns an error,
NewChallenge returns a non-nil error and every account object and the store
are as before. -/
theorem newChallenge_sets_credential :
    (∀ {σ : Type} (s : Accounts σ) (registry : Registry) (now : Int) (a : Ptr) (v : Bytes)
      (w : World σ) (B : ComputerVerifier) (c : Bytes),
      registry s.AuthType = some B →
      B.Compute v = some (c, none) →
      (s.NewChallenge registry now a v w).ret = some none ∧
      (s.NewChallenge registry now a v w).world.heap.obj a
        = { Name := (w.heap.obj a).Name, AuthType := s.AuthType, AuthData := c,
            Locked := (w.heap.obj a).Locked, Expires := now + s.PasswordLifetime,
            AuxData := (w.heap.obj a).AuxData } ∧
      (∀ q, q ≠ a → (s.NewChallenge registry now a v w).world.heap.obj q = w.heap.obj q) ∧
      (s.NewChallenge registry now a v w).world.store = w.store ∧
      (s.NewChallenge registry now a v w).trace = [Event.compute s.AuthType v]) ∧
    (∀ {σ : Type} (s : Accounts σ) (registry : Registry) (now : Int) (a : Ptr) (v : Bytes)
      (w : World σ),
      (registry s.AuthType = none ∨
        ∃ B x e, registry s.AuthType = some B ∧ B.Compute v = some (x, some e)) →
      (∃ e, (s.NewChallenge registry now a v w).ret = some (some e)) ∧
      (s.NewChallenge registry now a v w).world = w ∧
      (∀ ev ∈ (s.NewChallenge registry now a v w).trace, ev = Event.compute s.AuthType v)) := by
  constructor
  · intro σ s registry now a v w B c hB hcomp
    simp [Accounts.NewChallenge, Accounts.setChallenge, auth.Compute, hB, hcomp,
      Accounts.touchExpiration, Heap.set]
    intro q hq
    simp [hq]
  · intro σ s registry now a v w hfail
    rcases hfail with hB | ⟨B, x, e, hB, hcomp⟩
    · simp [Accounts.NewChallenge, Accounts.setChallenge, auth.Compute, hB, errors.Wrap]
    · simp [Accounts.NewChallenge, Accounts.setChallenge, auth.Compute, hB, hcomp, errors.Wrap]

/-- Witness for C13: a new challenge for "bob" from the secret 4 at instant
10, under the configured scheme "A" and under the unregistered scheme "C". -/
theorem newChallenge_sets_credential_witness :
    ((sampleAccounts "A").NewChallenge sampleRegistry 10 1 [4] (sampleWorld filesOk)).world.heap.obj 1
      = { Name := "bob", AuthType := "A", AuthData := [135], Locked := false, Expires := 10 + 1000, AuxData := [] } ∧
    ((sampleAccounts "C").NewChallenge sampleRegistry 10 1 [4] (sampleWorld filesOk)).world
      = sampleWorld filesOk :=
  ⟨(newChallenge_sets_credential.1 (sampleAccounts "A") sampleRegistry 10 1 [4]
      (sampleWorld filesOk) TestAuth [135] rfl (by decide)).2.1,
   (newChallenge_sets_credential.2 (sampleAccounts "C") sampleRegistry 10 1 [4]
      (sampleWorld filesOk) (Or.inl rfl)).2.1⟩

/-- C14: Accounts.Update returns nil exactly when the store's Update and
then its Flush both return nil. Flush is called only after Update returned
nil: when Update fails the only call is that Update. An Update failure is
returned wrapped with the message "updating account" and a Flush failure
wrapped with the message "flushing account update", so the two are told
apart. -/
theorem update_then_flush {σ : Type} (s : Accounts σ) (a : Ptr) (w : World σ) :
    ((s.Update a w).ret = some none ↔
      (s.Store.Update a w.heap w.store).1 = none ∧
      (s.Store.Flush w.heap (s.Store.Update a w.heap w.store).2).1 = none) ∧
    (∀ e, (s.Store.Update a w.heap w.store).1 = some e →
      (s.Update a w).ret = some (some (GoError.withStack e "updating account")) ∧
      (s.Update a w).trace = [Event.storeUpdate a (w.heap.obj a)]) ∧
    ((s.Store.Update a w.heap w.store).1 = none →
      (s.Update a w).trace = [Event.storeUpdate a (w.heap.obj a), Event.storeFlush]) ∧
    (∀ e, (s.Store.Update a w.heap w.store).1 = none →
      (s.Store.Flush w.heap (s.Store.Update a w.heap w.store).2).1 = some e →
      (s.Update a w).ret = some (some (GoError.withStack e "flushing account update"))) := by
  unfold Accounts.Update
  rcases hu : s.Store.Update a w.heap w.store with ⟨_ | eu, st1⟩
  · rcases hf : s.Store.Flush w.heap st1 with ⟨_ | ef, st2⟩ <;> simp [hf, errors.Wrap]
  · simp [errors.Wrap]

/-- Witness for C14: updating "alice" in the JSON store when the file of the
store cannot be opened. -/
theorem update_then_flush_witness :
    ((sampleAccounts "A").Update 0 (sampleWorld filesDenied)).ret
      = some (some (GoError.withStack
          (GoError.withStack (GoError.foreign "permission denied" none none)
            "writing account store")
          "flushing account update")) :=
  (update_then_flush (sampleAccounts "A") 0 (sampleWorld filesDenied)).2.2.2
    (GoError.withStack (GoError.foreign "permission denied" none none) "writing account store")
    rfl rfl

/-! ### The loop of Cleanup -/

/-- One step of the loop only deletes: an entry found afterwards was there
before. -/
theorem cleanupStep_sub (now : Int) (ss : Sessions) (k id : String) (sess : Session)
    (h : (Sessions.cleanupStep now ss k).s id = some sess) : ss.s id = some sess := by
  unfold Sessions.cleanupStep at h
  split at h
  · split at h
    · simp only at h
      split at h
      · simp at h
      · exact h
    · exact h
  · exact h

/-- One step of the loop keeps an entry that is not expired. -/
theorem cleanupStep_keeps (now : Int) (ss : Sessions) (k id : String) (sess : Session)
    (h : ss.s id = some sess) (hlive : ¬ sess.Expires < now) :
    (Sessions.cleanupStep now ss k).s id = some sess := by
  unfold Sessions.cleanupStep
  split
  · rename_i sk hk
    split
    · rename_i hexp
      simp only
      split
      · rename_i hid
        subst hid
        rw [hk] at h
        cases h
        exact absurd hexp hlive
      · exact h
    · exact h
  · exact h

/-- After the step for the key `k`, the entry of `k` is gone or not
expired. -/
theorem cleanupStep_at (now : Int) (ss : Sessions) (k : String) (sess : Session)
    (h : (Sessions.cleanupStep now ss k).s k = some sess) : ¬ sess.Expires < now := by
  unfold Sessions.cleanupStep at h
  split at h
  · rename_i sk hk
    split at h
    · simp at h
    · rename_i hexp
      rw [hk] at h
      cases h
      exact hexp
  · rename_i hk
    rw [hk] at h
    cases h

/-- The loop only deletes. -/
theorem cleanup_sub (now : Int) (order : List String) :
    ∀ (ss : Sessions) (id : String) (sess : Session),
      (ss.Cleanup now order).s id = some sess → ss.s id = some sess := by
  induction order with
  | nil => intro ss id sess h; exact h
  | cons k rest ih =>
    intro ss id sess h
    exact cleanupStep_sub now ss k id sess (ih (Sessions.cleanupStep now ss k) id sess h)

/-- The loop keeps an entry that is not expired. -/
theorem cleanup_keeps (now : Int) (order : List String) :
    ∀ (ss : Sessions) (id : String) (sess : Session),
      ss.s id = some sess → ¬ sess.Expires < now → (ss.Cleanup now order).s id = some sess := by
  induction order with
  | nil => intro ss id sess h _; exact h
  | cons k rest ih =>
    intro ss id sess h hlive
    exact ih (Sessions.cleanupStep now ss k) id sess (cleanupStep_keeps now ss k id sess h hlive)
      hlive

/-- An entry of a key that the loop visited is, after the loop, not expired. -/
theorem cleanup_visited (now : Int) (order : List String) :
    ∀ (ss : Sessions) (id : String) (sess : Session),
      id ∈ order → (ss.Cleanup now order).s id = some sess → ¬ sess.Expires < now := by
  induction order with
  | nil => intro ss id sess hmem; cases hmem
  | cons k rest ih =>
    intro ss id sess hmem h
    by_cases hin : id ∈ rest
    · exact ih (Sessions.cleanupStep now ss k) id sess hin h
    · have hk : id = k := by
        rcases List.mem_cons.mp hmem with h1 | h1
        · exact h1
        · exact absurd h1 hin
      subst hk
      exact cleanupStep_at now ss id sess
        (cleanup_sub now rest (Sessions.cleanupStep now ss id) id sess h)

/-- The loop does not change the duration. -/
theorem cleanup_duration (now : Int) (order : List String) :
    ∀ (ss : Sessions), (ss.Cleanup now order).duration = ss.duration := by
  induction order with
  | nil => intro ss; rfl
  | cons k rest ih =>
    intro ss
    have hstep : (Sessions.cleanupStep now ss k).duration = ss.duration := by
      unfold Sessions.cleanupStep
      split
      · split <;> rfl
      · rfl
    exact (ih (Sessions.cleanupStep now ss k)).trans hstep

/-- C15: sliding window. For every session store with a positive duration
and every id not in the store: a Get of the id at instant t1 creates a
session expiring at t1 + duration, and a second Get of the id, whose clock
readings t2 and t3 are not before t1 (t1 ≤ t2 ≤ t3), returns a session whose
Expires is strictly later than the first one: the first Expires + duration
if the first session is still live at t2, and t3 + duration if it has
expired. -/
theorem sessions_sliding_window (ss : Sessions) (id : String) (t0 t1 t2 t3 : Int)
    (hfresh : ss.s id = none) (hpos : 0 < ss.duration) (h12 : t1 ≤ t2) (h23 : t2 ≤ t3) :
    (ss.Get t0 t1 id).1.Expires = t1 + ss.duration ∧
    ((ss.Get t0 t1 id).2.Get t2 t3 id).1.Expires
      = (if t1 + ss.duration > t2 then t1 + ss.duration + ss.duration else t3 + ss.duration) ∧
    (ss.Get t0 t1 id).1.Expires < ((ss.Get t0 t1 id).2.Get t2 t3 id).1.Expires := by
  simp only [Sessions.Get, hfresh, if_true]
  by_cases hlive : t1 + ss.duration > t2
  · simp only [hlive, if_true]
    refine ⟨trivial, trivial, ?_⟩
    omega
  · simp only [hlive, if_false]
    refine ⟨trivial, trivial, ?_⟩
    omega

/-- Witness for C15: a new store with duration 5; Get of "x" at instant 0 and
again at instant 3. -/
theorem sessions_sliding_window_witness :
    ((NewSessions 5).Get 0 0 "x").1.Expires
      < (((NewSessions 5).Get 0 0 "x").2.Get 3 3 "x").1.Expires :=
  (sessions_sliding_window (NewSessions 5) "x" 0 0 3 3 rfl (by decide) (by decide)
    (by decide)).2.2

/-- C16 as stated fails: the session "sid" expires at instant 10, Cleanup
runs at instant 10 and visits "sid", and afterwards the store still holds
the session, whose Expires is at (so at or before) instant 10. -/
theorem cleanup_keeps_session_expiring_now :
    (sampleSessions.Cleanup 10 ["sid"]).s "sid"
      = some { Id := "sid", Username := "alice", Expires := 10 } ∧
    ((10 : Int) ≤ 10) := by
  decide

/-- C16, amended: after Cleanup runs at instant now, the loop having visited
every key of the map, the store contains no session whose Expires is before
now; a session whose Expires equals now exactly is kept. -/
theorem cleanup_removes_expired (ss : Sessions) (now : Int) (order : List String)
    (hcover : ∀ id, ss.s id ≠ none → id ∈ order) :
    (∀ id sess, (ss.Cleanup now order).s id = some sess → ¬ sess.Expires < now) ∧
    (∀ id sess, ss.s id = some sess → sess.Expires = now →
      (ss.Cleanup now order).s id = some sess) := by
  constructor
  · intro id sess h
    have hin : id ∈ order := by
      apply hcover
      rw [cleanup_sub now order ss id sess h]
      simp
    exact cleanup_visited now order ss id sess hin h
  · intro id sess h heq
    exact cleanup_keeps now order ss id sess h (by omega)

/-- Witness for C16 as amended: Cleanup at instant 10 on the sample store
keeps the session "sid", which expires at instant 10. -/
theorem cleanup_removes_expired_witness :
    (sampleSessions.Cleanup 10 ["sid"]).s "sid"
      = some { Id := "sid", Username := "alice", Expires := 10 } :=
  (cleanup_removes_expired sampleSessions 10 ["sid"]
    (by
      intro id h
      by_cases hid : id = "sid"
      · simp [hid]
      · exact absurd (by simp [sampleSessions, hid]) h)).2
    "sid" { Id := "sid", Username := "alice", Expires := 10 } rfl rfl

/-- C17: Cleanup at instant now keeps every session whose Expires is after
now, whatever the order of the loop: the id is still bound to the same
session (same Id, Username and Expires) and the duration is unchanged, so a
Get of that id at an instant before the session expires returns that
session, with its Id and Username, extended by the duration, and not a new
one. -/
theorem cleanup_keeps_live (ss : Sessions) (now : Int) (order : List String) (id : String)
    (sess : Session) (hbound : ss.s id = some sess) (hlive : now < sess.Expires) :
    (ss.Cleanup now order).s id = some sess ∧
    (ss.Cleanup now order).duration = ss.duration ∧
    (∀ t t2 : Int, t < sess.Expires →
      ((ss.Cleanup now order).Get t t2 id).1
        = { Id := sess.Id, Username := sess.Username, Expires := sess.Expires + ss.duration }) := by
  have hk : (ss.Cleanup now order).s id = some sess :=
    cleanup_keeps now order ss id sess hbound (by omega)
  have hd : (ss.Cleanup now order).duration = ss.duration := cleanup_duration now order ss
  refine ⟨hk, hd, ?_⟩
  intro t t2 ht
  simp only [Sessions.Get, hk, hd]
  rw [if_pos (by omega)]

/-- Witness for C17: Cleanup at instant 7 keeps "sid" (expiring at 10), and a
Get at instant 8 returns the session of "alice". -/
theorem cleanup_keeps_live_witness :
    (sampleSessions.Cleanup 7 ["sid"]).s "sid"
      = some { Id := "sid", Username := "alice", Expires := 10 } ∧
    ((sampleSessions.Cleanup 7 ["sid"]).Get 8 8 "sid").1
      = { Id := "sid", Username := "alice", Expires := 10 + 5 } :=
  ⟨(cleanup_keeps_live sampleSessions 7 ["sid"] "sid"
      { Id := "sid", Username := "alice", Expires := 10 } rfl (by decide)).1,
   (cleanup_keeps_live sampleSessions 7 ["sid"] "sid"
      { Id := "sid", Username := "alice", Expires := 10 } rfl (by decide)).2.2 8 8 (by decide)⟩

/-- C18: for every id bound to a session whose Expires is strictly after the
instant of the call, Get returns that session with its Id and Username
unchanged and its Expires equal to the previous Expires plus the duration
(whatever the clock reads), binds the id to it, and changes no other
binding and not the duration. -/
theorem get_extends_live_session (ss : Sessions) (now now2 : Int) (id : String) (sess : Session)
    (hbound : ss.s id = some sess) (hlive : now < sess.Expires) :
    (ss.Get now now2 id).1
      = { Id := sess.Id, Username := sess.Username, Expires := sess.Expires + ss.duration } ∧
    (ss.Get now now2 id).2.s id = some (ss.Get now now2 id).1 ∧
    (∀ k, k ≠ id → (ss.Get now now2 id).2.s k = ss.s k) ∧
    (ss.Get now now2 id).2.duration = ss.duration := by
  simp only [Sessions.Get, hbound]
  rw [if_pos (by omega)]
  refine ⟨rfl, by simp, ?_, rfl⟩
  intro k hk
  simp [hk]

/-- Witness for C18: Get of "sid" (expiring at 10, duration 5) at instant 3
returns the session of "alice" expiring at 15, not at 8. -/
theorem get_extends_live_session_witness :
    (sampleSessions.Get 3 3 "sid").1 = { Id := "sid", Username := "alice", Expires := 10 + 5 } :=
  (get_extends_live_session sampleSessions 3 3 "sid"
    { Id := "sid", Username := "alice", Expires := 10 } rfl (by decide)).1

/-- C19: for every id that is not bound, or bound to a session whose Expires
is at or before the instant read in the condition, Get returns a new session
with Id = id, an empty Username and Expires = the instant read at the
creation + duration, binds the id to it in place of any old entry, and
changes no other binding; the Username of the expired session is not
returned. And in every store, whatever the id was bound to (a live session
included): Delete removes the binding of the id and no other, and a Get of
the id right after the Delete returns such a new session, bound to the id,
and changes no other binding. -/
theorem get_creates_session (ss : Sessions) (now now2 : Int) (id : String) :
    ((ss.s id = none ∨ ∃ sess, ss.s id = some sess ∧ sess.Expires ≤ now) →
      (ss.Get now now2 id).1 = { Id := id, Username := "", Expires := now2 + ss.duration } ∧
      (ss.Get now now2 id).2.s id
        = some { Id := id, Username := "", Expires := now2 + ss.duration } ∧
      (∀ k, k ≠ id → (ss.Get now now2 id).2.s k = ss.s k)) ∧
    (ss.Delete id).s id = none ∧
    (∀ k, k ≠ id → (ss.Delete id).s k = ss.s k) ∧
    (ss.Delete id).duration = ss.duration ∧
    ((ss.Delete id).Get now now2 id).1
      = { Id := id, Username := "", Expires := now2 + ss.duration } ∧
    ((ss.Delete id).Get now now2 id).2.s id
      = some { Id := id, Username := "", Expires := now2 + ss.duration } ∧
    (∀ k, k ≠ id → ((ss.Delete id).Get now now2 id).2.s k = ss.s k) := by
  refine ⟨?_, ?_, ?_, rfl, ?_, ?_, ?_⟩
  · intro hgone
    rcases hgone with hnone | ⟨sess, hsome, hexp⟩
    · simp only [Sessions.Get, hnone]
      refine ⟨trivial, by simp, ?_⟩
      intro k hk
      simp [hk]
    · simp only [Sessions.Get, hsome]
      rw [if_neg (by omega)]
      refine ⟨rfl, by simp, ?_⟩
      intro k hk
      simp [hk]
  · simp [Sessions.Delete]
  · intro k hk
    simp [Sessions.Delete, hk]
  · simp [Sessions.Get, Sessions.Delete]
  · simp [Sessions.Get, Sessions.Delete]
  · intro k hk
    simp [Sessions.Get, Sessions.Delete, hk]

/-- Witness for C19: Get of "sid" (expiring at 10) at instant 12 returns a
new session without the Username "alice"; and after Delete of "sid", a Get
at instant 3, when the deleted session would still be live, returns a new
session without the Username "alice" too. -/
theorem get_creates_session_witness :
    (sampleSessions.Get 12 12 "sid").1 = { Id := "sid", Username := "", Expires := 12 + 5 } ∧
    (sampleSessions.Delete "sid").s "sid" = none ∧
    ((sampleSessions.Delete "sid").Get 3 3 "sid").1
      = { Id := "sid", Username := "", Expires := 3 + 5 } :=
  ⟨((get_creates_session sampleSessions 12 12 "sid").1
      (Or.inr ⟨{ Id := "sid", Username := "alice", Expires := 10 }, rfl, by decide⟩)).1,
   (get_creates_session sampleSessions 3 3 "sid").2.1,
   (get_creates_session sampleSessions 3 3 "sid").2.2.2.2.1⟩

/-- C20, evaluated on the code: the JSON store holds "alice" at address 0,
whose Name is "alice". After Rename("alice", alice) the Name is still
"alice" but Get("alice") fails with the not-found error: the entry written
under the new name is deleted as the entry of the old name. -/
theorem rename_to_current_name_loses_account :
    sampleJson.Get "alice" = (some 0, none) ∧
    (sampleHeap.obj 0).Name = "alice" ∧
    ((sampleJson.Rename "alice" 0 sampleHeap).2.2.obj 0).Name = "alice" ∧
    (sampleJson.Rename "alice" 0 sampleHeap).2.1.Get "alice"
      = (none, some (GoError.notFoundError "not found")) := by
  decide

/-- For a store whose map is not nil and a new name that differs from the
current name of the account, Rename does what C20 says: the Name is the new name, Get of the new name
returns the account, and Get of the old name fails with a not-found
error. -/
theorem rename_to_other_name (s : json.Store) (newname : String) (a : Ptr) (h : Heap)
    (hne : newname ≠ (h.obj a).Name) :
    ((s.Rename newname a h).2.2.obj a).Name = newname ∧
    (s.Rename newname a h).2.1.Get newname = (some a, none) ∧
    account.IsNotFound ((s.Rename newname a h).2.1.Get (h.obj a).Name).2 = true ∧
    ((s.Rename newname a h).2.1.Get (h.obj a).Name).1 = none := by
  simp [json.Store.Rename, json.Store.Delete, json.Store.Get, Heap.set, hne, Ne.symm hne,
    account.IsNotFound]

/-! ### The scrypt mechanism -/

/-- A successful Compute returns the salt, of saltLen bytes, followed by the
key derived from it. -/
theorem scrypt_compute_shape (s : Scrypt) (key : KeyFn) (rnd : RandRead) (v c : Bytes)
    (hc : s.Compute key rnd v = some (c, none)) :
    ∃ salt k, c = salt ++ k ∧ (salt.length : Int) = s.saltLen ∧
      key v salt s.n s.r s.p s.len = (k, none) := by
  unfold Scrypt.Compute at hc
  by_cases hneg : s.saltLen < 0
  · simp [hneg] at hc
  · simp only [hneg, if_false] at hc
    by_cases hn : rnd.n ≠ s.saltLen
    · simp [hn, errors.New] at hc
    · simp only [hn, if_false] at hc
      cases herr : rnd.err with
      | some e => simp [herr] at hc
      | none =>
        simp only [herr] at hc
        rcases hk : key v ((rnd.bytes ++ List.replicate s.saltLen.toNat 0).take s.saltLen.toNat)
          s.n s.r s.p s.len with ⟨k, _ | e⟩
        · rw [hk] at hc
          simp only [Option.some.injEq, Prod.mk.injEq, and_true] at hc
          refine ⟨_, k, hc.symm, ?_, hk⟩
          simp
          omega
        · rw [hk] at hc
          simp at hc

/-- C21: round trip for the scrypt mechanism, with scrypt.Key a
deterministic function. For every secret v: if Compute returns the challenge
c (with a nil error), then c is a salt of saltLen bytes followed by the key
that scrypt.Key derives from v and that salt, Verify(c, v) is true whatever
lies behind c in memory, and once the mechanism is registered under a name,
auth.Verify(name, c, v) returns (true, nil). -/
theorem scrypt_round_trip (s : Scrypt) (key : KeyFn) (rnd : RandRead) (spare v c : Bytes)
    (hc : s.Compute key rnd v = some (c, none)) :
    (∃ salt k, c = salt ++ k ∧ (salt.length : Int) = s.saltLen ∧
      key v salt s.n s.r s.p s.len = (k, none)) ∧
    s.Verify key c spare v = some true ∧
    (∀ (registry : Registry) (name : String), registry name = none →
      (auth.Verify (auth.Register registry name (s.mechanism key rnd spare)).2 name c v).1
        = some (true, none)) := by
  obtain ⟨salt, k, hck, hlen, hk⟩ := scrypt_compute_shape s key rnd v c hc
  have hv : s.Verify key c spare v = some true := by
    subst hck
    have hnn : (salt.length : Int) = s.saltLen := hlen
    have htn : s.saltLen.toNat = salt.length := by omega
    unfold Scrypt.Verify
    rw [if_neg (by simp; omega)]
    simp only [htn, List.append_assoc, List.take_left', hk]
    rw [if_neg (by simp; omega)]
    simp
  refine ⟨⟨salt, k, hck, hlen, hk⟩, hv, ?_⟩
  intro registry name hnone
  simp [auth.Verify, auth.Register, hnone, Scrypt.mechanism, hv]

/-- Witness for C21: the default mechanism, the secret 1,2,3 and a salt of 32
bytes 7. -/
theorem scrypt_round_trip_witness :
    ScryptDefault.Verify sampleKey (List.replicate 32 7 ++ List.replicate 32 7) [] [1, 2, 3]
      = some true ∧
    (auth.Verify
        (auth.Register (fun _ => none) "SCRYPTDEFAULT"
          (ScryptDefault.mechanism sampleKey sampleRand [])).2
        "SCRYPTDEFAULT" (List.replicate 32 7 ++ List.replicate 32 7) [1, 2, 3]).1
      = some (true, none) :=
  ⟨(scrypt_round_trip ScryptDefault sampleKey sampleRand [] [1, 2, 3]
      (List.replicate 32 7 ++ List.replicate 32 7) (by decide)).2.1,
   (scrypt_round_trip ScryptDefault sampleKey sampleRand [] [1, 2, 3]
      (List.replicate 32 7 ++ List.replicate 32 7) (by decide)).2.2 (fun _ => none)
      "SCRYPTDEFAULT" rfl⟩

/-- C22, evaluated on the code: for the default mechanism (salt length 32),
whatever scrypt.Key computes and whatever the attempt, Verify panics on the
empty challenge and on a challenge of 31 bytes, since `challenge[:32]` is out
of range; so does auth.Verify under "SCRYPTDEFAULT". With one more byte of
capacity behind the 31 bytes, the key is derived and Verify then panics on
`challenge[32:]`. -/
theorem scrypt_verify_panics_on_short_challenge (key : KeyFn) (rnd : RandRead)
    (attempt : Bytes) :
    ScryptDefault.Verify key [] [] attempt = none ∧
    ScryptDefault.Verify key (List.replicate 31 0) [] attempt = none ∧
    (auth.Verify
        (auth.Register (fun _ => none) "SCRYPTDEFAULT" (ScryptDefault.mechanism key rnd [])).2
        "SCRYPTDEFAULT" [] attempt).1 = none ∧
    ScryptDefault.Verify sampleKey (List.replicate 31 0) [0] [1, 2, 3] = none := by
  refine ⟨?_, ?_, ?_, by decide⟩
  · simp [Scrypt.Verify, ScryptDefault]
  · simp [Scrypt.Verify, ScryptDefault]
  · simp [auth.Verify, auth.Register, Scrypt.mechanism, Scrypt.Verify, ScryptDefault]

/-! ### What Auth writes -/

/-- Accounts.Update does not write any account object. -/
theorem update_heap {σ : Type} (s : Accounts σ) (a : Ptr) (w : World σ) :
    (s.Update a w).world.heap = w.heap := by
  unfold Accounts.Update
  rcases hu : s.Store.Update a w.heap w.store with ⟨_ | eu, st1⟩
  · rcases hf : s.Store.Flush w.heap st1 with ⟨_ | ef, st2⟩ <;> simp [hf]
  · simp

/-- The object that setChallenge leaves at an address differs from the one
it found at most in AuthType and AuthData. -/
theorem setChallenge_frame {σ : Type} (s : Accounts σ) (registry : Registry) (a : Ptr)
    (v : Bytes) (w : World σ) (q : Ptr) :
    ((s.setChallenge registry a v w).world.heap.obj q).Name = (w.heap.obj q).Name ∧
    ((s.setChallenge registry a v w).world.heap.obj q).Locked = (w.heap.obj q).Locked ∧
    ((s.setChallenge registry a v w).world.heap.obj q).Expires = (w.heap.obj q).Expires ∧
    ((s.setChallenge registry a v w).world.heap.obj q).AuxData = (w.heap.obj q).AuxData := by
  unfold Accounts.setChallenge
  rcases hc : auth.Compute registry s.AuthType v with ⟨_ | ⟨c, _ | e⟩, t⟩
  · simp
  · by_cases hq : q = a
    · subst hq; simp [Heap.set]
    · simp [Heap.set, hq]
  · simp

/-- The heap that Auth leaves is the heap it found, or that heap after
setChallenge on some account. -/
theorem auth_heap {σ : Type} (s : Accounts σ) (registry : Registry) (name : String)
    (attempt : Bytes) (w : World σ) :
    (s.Auth registry name attempt w).world.heap = w.heap ∨
    ∃ a w1, w1.heap = w.heap ∧
      (s.Auth registry name attempt w).world.heap
        = (s.setChallenge registry a attempt w1).world.heap := by
  unfold Accounts.Auth
  simp only [Accounts.Get]
  rcases hg : s.Store.Get name w.heap w.store with ⟨⟨_ | a, _ | e⟩, st1⟩
  · simp
  · by_cases hnf : account.IsNotFound (some e) = true <;> simp [hnf]
  · simp only
    by_cases hl : (w.heap.obj a).Locked = true
    · simp [hl]
    · simp only [hl]
      rcases hv : auth.Verify registry (w.heap.obj a).AuthType (w.heap.obj a).AuthData attempt
        with ⟨_ | ⟨ok, _ | e⟩, tv⟩
      · simp
      · simp only
        by_cases hne : (w.heap.obj a).AuthType ≠ s.AuthType
        · right
          refine ⟨a, { heap := w.heap, store := st1 }, rfl, ?_⟩
          rw [if_pos hne]
          rcases hsc : s.setChallenge registry a attempt { heap := w.heap, store := st1 }
            with ⟨_ | _ | e, w2, tc⟩
          · simp
          · simp only
            rcases hup : s.Update a w2 with ⟨_ | x, w3, tu⟩
            · have := update_heap s a w2
              rw [hup] at this
              simpa using this
            · have := update_heap s a w2
              rw [hup] at this
              simpa using this
          · simp
        · simp [hne]
      · simp
  · by_cases hnf : account.IsNotFound (some e) = true <;> simp [hnf]

/-- C23: Auth never changes the Name, Locked, Expires or AuxData of any
account object, on any path. When it re-hashes (unlocked account, stored
scheme registered and answering, configured scheme different and computing
the challenge c), the account afterwards is the account before with AuthType
and AuthData replaced, so Expires keeps its previous value; NewChallenge
with the same Compute sets Expires to now + PasswordLifetime. -/
theorem auth_frame {σ : Type} (s : Accounts σ) (registry : Registry) (name : String)
    (attempt : Bytes) (w : World σ) :
    (∀ q : Ptr,
      ((s.Auth registry name attempt w).world.heap.obj q).Name = (w.heap.obj q).Name ∧
      ((s.Auth registry name attempt w).world.heap.obj q).Locked = (w.heap.obj q).Locked ∧
      ((s.Auth registry name attempt w).world.heap.obj q).Expires = (w.heap.obj q).Expires ∧
      ((s.Auth registry name attempt w).world.heap.obj q).AuxData = (w.heap.obj q).AuxData) ∧
    (∀ (a : Ptr) (st1 : σ) (A B : ComputerVerifier) (ok : Bool) (c : Bytes),
      s.Store.Get name w.heap w.store = ((some a, none), st1) →
      (w.heap.obj a).Locked = false →
      registry (w.heap.obj a).AuthType = some A →
      A.Verify (w.heap.obj a).AuthData attempt = some ok →
      (w.heap.obj a).AuthType ≠ s.AuthType →
      registry s.AuthType = some B →
      B.Compute attempt = some (c, none) →
      (s.Auth registry name attempt w).world.heap.obj a
        = { (w.heap.obj a) with AuthType := s.AuthType, AuthData := c }) ∧
    (∀ (now : Int) (a : Ptr) (v : Bytes) (B : ComputerVerifier) (c : Bytes),
      registry s.AuthType = some B →
      B.Compute v = some (c, none) →
      ((s.NewChallenge registry now a v w).world.heap.obj a).Expires
        = now + s.PasswordLifetime) := by
  refine ⟨?_, ?_, ?_⟩
  · intro q
    rcases auth_heap s registry name attempt w with h | ⟨a, w1, hw1, h⟩
    · rw [h]
      exact ⟨rfl, rfl, rfl, rfl⟩
    · rw [h, ← hw1]
      exact setChallenge_frame s registry a attempt w1 q
  · intro a st1 A B ok c hget hunl hA hver hne hB hcomp
    have hsc : s.setChallenge registry a attempt { heap := w.heap, store := st1 }
        = { ret := some none,
            world := { heap := w.heap.set a { (w.heap.obj a) with AuthType := s.AuthType, AuthData := c }, store := st1 },
            trace := [Event.compute s.AuthType attempt] } := by
      simp [Accounts.setChallenge, auth.Compute, hB, hcomp]
    unfold Accounts.Auth
    simp only [Accounts.Get, hget, hunl, auth.Verify, hA, hver]
    rw [if_neg (by simp), if_pos hne, hsc]
    simp only
    split
    · rename_i w3 tu hu
      have hup := congrArg (fun o => o.world.heap) hu
      simp only [update_heap] at hup
      simp only
      rw [← hup]
      simp [Heap.set, hunl]
    · rename_i x w3 tu hu
      have hup := congrArg (fun o => o.world.heap) hu
      simp only [update_heap] at hup
      simp only
      rw [← hup]
      simp [Heap.set, hunl]
  · intro now a v B c hB hcomp
    simp [Accounts.NewChallenge, Accounts.setChallenge, auth.Compute, hB, hcomp,
      Accounts.touchExpiration, Heap.set]

/-- Witness for C23: "alice" (Expires 5), stored under "A", logs in while "B"
is configured: afterwards her account has AuthType "B" and Expires 5. A
NewChallenge at instant 10 with lifetime 1000 sets Expires to 1010. -/
theorem auth_frame_witness :
    (((sampleAccounts "B").Auth sampleRegistry "alice" [1, 2, 3] (sampleWorld filesOk)).world.heap.obj 0).Expires
      = (sampleHeap.obj 0).Expires ∧
    ((sampleAccounts "B").Auth sampleRegistry "alice" [1, 2, 3] (sampleWorld filesOk)).world.heap.obj 0
      = { Name := "alice", AuthType := "B", AuthData := [130, 129, 128], Expires := 5 } ∧
    (((sampleAccounts "B").NewChallenge sampleRegistry 10 0 [1, 2, 3] (sampleWorld filesOk)).world.heap.obj 0).Expires
      = 10 + 1000 :=
  ⟨((auth_frame (sampleAccounts "B") sampleRegistry "alice" [1, 2, 3]
      (sampleWorld filesOk)).1 0).2.2.1,
   (auth_frame (sampleAccounts "B") sampleRegistry "alice" [1, 2, 3]
      (sampleWorld filesOk)).2.1 0 (sampleJson, filesOk) TestAuth TestAuth true [130, 129, 128]
      rfl rfl rfl (by decide) (by decide) rfl (by decide),
   (auth_frame (sampleAccounts "B") sampleRegistry "alice" [1, 2, 3]
      (sampleWorld filesOk)).2.2 10 0 [1, 2, 3] TestAuth [130, 129, 128] rfl (by decide)⟩

end Dup
